import Mathlib

/- A shallow embedding of src/chia/full_node/mempool_check_conditions.py.

   Atoms (CLVM byte strings) are modelled as List Nat. Python exceptions are
   modelled as Except.error (): the distinct exception messages collapse to a
   single error value, which is exactly what this module's callers can observe,
   since every exception is trapped at the get_name_puzzle_conditions boundary
   and becomes GENERATOR_RUNTIME_ERROR, and the evaluator's callers see only
   "an exception escaped".

   Collaborator code that is not part of the translated source file
   (the chia.util.clvm numeric codec, the opcode wire table, the condition cost
   table, chia.util.condition_tools.conditions_by_opcode, the sized-int
   coercions and the CLVM VM itself) is modelled from the spec; each such
   definition carries a doc comment saying so. -/

deriving instance DecidableEq for Except

/-- CLVM S-expression: an atom (byte string) or a pair. Condition arguments
    are right-nested lists terminated by the empty atom. -/
inductive SExp where
  | atom (a : List Nat)
  | pair (h t : SExp)
deriving DecidableEq

/-- Python `s.first()`: raises (EvalError) on an atom. -/
def sfirst : SExp → Except Unit SExp
  | SExp.atom _ => Except.error ()
  | SExp.pair h _ => Except.ok h

/-- Python `s.rest()`: raises (EvalError) on an atom. -/
def srest : SExp → Except Unit SExp
  | SExp.atom _ => Except.error ()
  | SExp.pair _ t => Except.ok t

/-- Python `s.atom` / `s.as_atom()`: `None` on a pair, never raises. -/
def satom : SExp → Option (List Nat)
  | SExp.atom a => some a
  | SExp.pair _ _ => none

/-- Python clvm `as_atom_list`: collects leading atoms of a proper list,
    stopping silently at the first non-atom element or non-pair tail. -/
def as_atom_list : SExp → List (List Nat)
  | SExp.atom _ => []
  | SExp.pair (SExp.atom a) t => a :: as_atom_list t
  | SExp.pair (SExp.pair _ _) _ => []

/-- Big-endian unsigned value of a byte string. -/
def bytesToNat (b : List Nat) : Nat := b.foldl (fun acc x => acc * 256 + x) 0

/-- Modelled from the spec: chia.util.clvm.int_from_bytes (not under src/).
    Atoms representing integers follow a signed big-endian two's-complement
    encoding; an empty atom encodes zero; decoding is total over all byte
    strings (§6 Numeric encoding). -/
def int_from_bytes (b : List Nat) : Int :=
  if b = [] then 0
  else if b.headD 0 < 128 then (bytesToNat b : Int)
  else (bytesToNat b : Int) - ((2 : Int) ^ (8 * b.length))

/-- Big-endian byte string of a Nat, no leading zero bytes; structural
    recursion on a fuel bound (fuel = v always suffices, since v / 256 < v). -/
def natToBytesBEAux : Nat → Nat → List Nat
  | _, 0 => []
  | 0, _ + 1 => []
  | fuel + 1, v + 1 => natToBytesBEAux fuel ((v + 1) / 256) ++ [(v + 1) % 256]

/-- Big-endian byte string of a Nat, no leading zero bytes. -/
def natToBytesBE (v : Nat) : List Nat := natToBytesBEAux v v

/-- Modelled from the spec: chia.util.clvm.int_to_bytes (not under src/) on a
    non-negative value, the canonical signed big-endian minimal encoding used
    inside the coin name (§6): zero is the empty string, and a leading zero
    byte is added when the top bit would read as a sign bit. -/
def int_to_bytes (v : Nat) : List Nat :=
  let r := natToBytesBE v
  if 128 ≤ r.headD 0 then 0 :: r else r

/-- Modelled from the spec: the condition opcode enumeration (§6), with the
    pseudo-opcode UNKNOWN for conditions accepted only in permissive mode (§3).
    The defining module chia.util.condition_tools / condition_opcodes is not
    under src/. -/
inductive ConditionOpcode where
  | UNKNOWN
  | AGG_SIG_UNSAFE
  | AGG_SIG_ME
  | CREATE_COIN
  | RESERVE_FEE
  | CREATE_COIN_ANNOUNCEMENT
  | ASSERT_COIN_ANNOUNCEMENT
  | CREATE_PUZZLE_ANNOUNCEMENT
  | ASSERT_PUZZLE_ANNOUNCEMENT
  | ASSERT_MY_COIN_ID
  | ASSERT_MY_PARENT_ID
  | ASSERT_MY_PUZZLEHASH
  | ASSERT_MY_AMOUNT
  | ASSERT_SECONDS_RELATIVE
  | ASSERT_SECONDS_ABSOLUTE
  | ASSERT_HEIGHT_RELATIVE
  | ASSERT_HEIGHT_ABSOLUTE
deriving DecidableEq

/-- Modelled from the spec: the recognized single-byte wire values (§6):
    AGG_SIG_UNSAFE=49, AGG_SIG_ME=50, CREATE_COIN=51, RESERVE_FEE=52,
    CREATE_COIN_ANNOUNCEMENT=60, ASSERT_COIN_ANNOUNCEMENT=61,
    CREATE_PUZZLE_ANNOUNCEMENT=62, ASSERT_PUZZLE_ANNOUNCEMENT=63,
    ASSERT_MY_COIN_ID=70, ASSERT_MY_PARENT_ID=71, ASSERT_MY_PUZZLEHASH=72,
    ASSERT_MY_AMOUNT=73, ASSERT_SECONDS_RELATIVE=80, ASSERT_SECONDS_ABSOLUTE=81,
    ASSERT_HEIGHT_RELATIVE=82, ASSERT_HEIGHT_ABSOLUTE=83. UNKNOWN has no wire
    byte. This realizes the Python `opcodes` set membership test together with
    the `ConditionOpcode(condition)` conversion. -/
def byteToOpcode (b : List Nat) : Option ConditionOpcode :=
  if b = [49] then some ConditionOpcode.AGG_SIG_UNSAFE
  else if b = [50] then some ConditionOpcode.AGG_SIG_ME
  else if b = [51] then some ConditionOpcode.CREATE_COIN
  else if b = [52] then some ConditionOpcode.RESERVE_FEE
  else if b = [60] then some ConditionOpcode.CREATE_COIN_ANNOUNCEMENT
  else if b = [61] then some ConditionOpcode.ASSERT_COIN_ANNOUNCEMENT
  else if b = [62] then some ConditionOpcode.CREATE_PUZZLE_ANNOUNCEMENT
  else if b = [63] then some ConditionOpcode.ASSERT_PUZZLE_ANNOUNCEMENT
  else if b = [70] then some ConditionOpcode.ASSERT_MY_COIN_ID
  else if b = [71] then some ConditionOpcode.ASSERT_MY_PARENT_ID
  else if b = [72] then some ConditionOpcode.ASSERT_MY_PUZZLEHASH
  else if b = [73] then some ConditionOpcode.ASSERT_MY_AMOUNT
  else if b = [80] then some ConditionOpcode.ASSERT_SECONDS_RELATIVE
  else if b = [81] then some ConditionOpcode.ASSERT_SECONDS_ABSOLUTE
  else if b = [82] then some ConditionOpcode.ASSERT_HEIGHT_RELATIVE
  else if b = [83] then some ConditionOpcode.ASSERT_HEIGHT_ABSOLUTE
  else none

/-- (Opcode, list of atoms), chia.types.condition_with_args. -/
structure ConditionWithArgs where
  opcode : ConditionOpcode
  vars : List (List Nat)
deriving DecidableEq

/-- The error kinds this module surfaces (subset of chia.util.errors.Err). -/
inductive Err where
  | BLOCK_COST_EXCEEDS_MAX
  | GENERATOR_RUNTIME_ERROR
  | INVALID_CONDITION
  | ASSERT_ANNOUNCE_CONSUMED_FAILED
  | ASSERT_MY_COIN_ID_FAILED
  | ASSERT_MY_PARENT_ID_FAILED
  | ASSERT_MY_PUZZLEHASH_FAILED
  | ASSERT_MY_AMOUNT_FAILED
  | ASSERT_HEIGHT_ABSOLUTE_FAILED
  | ASSERT_HEIGHT_RELATIVE_FAILED
  | ASSERT_SECONDS_ABSOLUTE_FAILED
  | ASSERT_SECONDS_RELATIVE_FAILED
deriving DecidableEq

/-- A coin as built by the generator runner: Python's Coin dataclass performs
    no validation, and `as_atom()` yields None for a pair, so the two id fields
    may be absent; amount is a checked uint64. -/
structure Coin where
  parent_coin_info : Option (List Nat)
  puzzle_hash : Option (List Nat)
  amount : Nat
deriving DecidableEq

/-- Modelled from the spec: the coin name is SHA-256 over
    parent_id ‖ puzzle_hash ‖ canonical_encode(amount) (§6); the hash itself
    (chia.util.hash, not under src/) is modelled by the concatenation it is
    applied to, which is injective on the fixed-width fields and, like the
    real hash, deterministic. Python raises (TypeError on None + bytes) when a
    field is absent, hence the Except. -/
def Coin.name (c : Coin) : Except Unit (List Nat) :=
  match c.parent_coin_info, c.puzzle_hash with
  | some p, some h => Except.ok (p ++ h ++ int_to_bytes c.amount)
  | _, _ => Except.error ()

/-- chia.types.coin_record.CoinRecord, the fields this module reads. -/
structure CoinRecord where
  coin : Coin
  confirmed_block_index : Nat
  timestamp : Nat
deriving DecidableEq

/-- chia.types.name_puzzle_condition.NPC: coin name, puzzle hash and the
    per-opcode grouped conditions (the runner stores `conditions_dict.items()`
    as a list of pairs). -/
structure NPC where
  coin_name : List Nat
  puzzle_hash : Option (List Nat)
  conditions : List (ConditionOpcode × List ConditionWithArgs)
deriving DecidableEq

/-- chia.consensus.cost_calculator.NPCResult. -/
structure NPCResult where
  error : Option Err
  npcs : List NPC
  cost : Nat
deriving DecidableEq

/-- Modelled from the spec: the per-opcode condition cost table
    (chia.consensus.condition_costs.ConditionCost, not under src/). The spec
    names each charge symbolically (AGG_SIG, CREATE_COIN, "resp.", §4.A)
    without numeric values, so the table is a parameter of the model. -/
def CostTable : Type := ConditionOpcode → Nat

def parse_aggsig (args : SExp) : Except Unit (List (List Nat)) :=
  match args with
  | SExp.pair p (SExp.pair m t) =>
    match satom p, satom m, satom t with
    | some pubkey, some message, some term =>
      if term = [] then
        if pubkey.length = 48 then
          if message.length ≤ 1024 then Except.ok [pubkey, message]
          else Except.error ()
        else Except.error ()
      else Except.error ()
    | _, _, _ => Except.error ()
  | _ => Except.error ()

def parse_create_coin (args : SExp) : Except Unit (List (List Nat)) :=
  match args with
  | SExp.pair ph (SExp.pair am t) =>
    match satom ph, satom am, satom t with
    | some puzzle_hash, some amount, some term =>
      if term = [] then
        if puzzle_hash.length = 32 then
          if int_from_bytes amount < 0 ∨ (2 : Int) ^ 64 ≤ int_from_bytes amount then
            Except.error ()
          else Except.ok [puzzle_hash, amount]
        else Except.error ()
      else Except.error ()
    | _, _, _ => Except.error ()
  | _ => Except.error ()

def parse_seconds (args : SExp) : Except Unit (Option (List (List Nat))) :=
  match args with
  | SExp.pair s t =>
    match satom s, satom t with
    | some seconds, some term =>
      if term = [] then
        if int_from_bytes seconds ≤ 0 then Except.ok none
        else if (2 : Int) ^ 64 ≤ int_from_bytes seconds then Except.error ()
        else Except.ok (some [seconds])
      else Except.error ()
    | _, _ => Except.error ()
  | _ => Except.error ()

def parse_height (args : SExp) : Except Unit (Option (List (List Nat))) :=
  match args with
  | SExp.pair hgt t =>
    match satom hgt, satom t with
    | some height, some term =>
      if term = [] then
        if int_from_bytes height ≤ 0 then Except.ok none
        else if (2 : Int) ^ 32 ≤ int_from_bytes height then Except.error ()
        else Except.ok (some [height])
      else Except.error ()
    | _, _ => Except.error ()
  | _ => Except.error ()

def parse_fee (args : SExp) : Except Unit (List (List Nat)) :=
  match args with
  | SExp.pair f t =>
    match satom f, satom t with
    | some fee, some term =>
      if term = [] then
        if int_from_bytes fee < 0 ∨ (2 : Int) ^ 64 ≤ int_from_bytes fee then Except.error ()
        else Except.ok [fee]
      else Except.error ()
    | _, _ => Except.error ()
  | _ => Except.error ()

def parse_coin_id (args : SExp) : Except Unit (List (List Nat)) :=
  match args with
  | SExp.pair c t =>
    match satom c, satom t with
    | some coin, some term =>
      if term = [] then
        if coin.length = 32 then Except.ok [coin] else Except.error ()
      else Except.error ()
    | _, _ => Except.error ()
  | _ => Except.error ()

/-- parse_hash; the Python `name` parameter only feeds the error message and
    is dropped here. -/
def parse_hash (args : SExp) : Except Unit (List (List Nat)) :=
  match args with
  | SExp.pair x t =>
    match satom x, satom t with
    | some h, some term =>
      if term = [] then
        if h.length = 32 then Except.ok [h] else Except.error ()
      else Except.error ()
    | _, _ => Except.error ()
  | _ => Except.error ()

def parse_amount (args : SExp) : Except Unit (List (List Nat)) :=
  match args with
  | SExp.pair a t =>
    match satom a, satom t with
    | some amount, some term =>
      if term = [] then
        if int_from_bytes amount < 0 ∨ (2 : Int) ^ 64 ≤ int_from_bytes amount then
          Except.error ()
        else Except.ok [amount]
      else Except.error ()
    | _, _ => Except.error ()
  | _ => Except.error ()

def parse_announcement (args : SExp) : Except Unit (List (List Nat)) :=
  match args with
  | SExp.pair m t =>
    match satom m, satom t with
    | some msg, some term =>
      if term = [] then
        if msg.length ≤ 1024 then Except.ok [msg] else Except.error ()
      else Except.error ()
    | _, _ => Except.error ()
  | _ => Except.error ()

/-- Lift a parser that always yields args (never elides). -/
def wrapSome (cost : Nat) (r : Except Unit (List (List Nat))) :
    Except Unit (Nat × Option (List (List Nat))) :=
  match r with
  | Except.error _ => Except.error ()
  | Except.ok l => Except.ok (cost, some l)

/-- Lift a parser that may elide (return None). -/
def wrapOpt (cost : Nat) (r : Except Unit (Option (List (List Nat)))) :
    Except Unit (Nat × Option (List (List Nat))) :=
  match r with
  | Except.error _ => Except.error ()
  | Except.ok l => Except.ok (cost, l)

def parse_condition_args (cc : CostTable) (args : SExp) (condition : ConditionOpcode) :
    Except Unit (Nat × Option (List (List Nat))) :=
  match condition with
  | ConditionOpcode.AGG_SIG_UNSAFE =>
    wrapSome (cc ConditionOpcode.AGG_SIG_UNSAFE) (parse_aggsig args)
  | ConditionOpcode.AGG_SIG_ME => wrapSome (cc ConditionOpcode.AGG_SIG_ME) (parse_aggsig args)
  | ConditionOpcode.CREATE_COIN =>
    wrapSome (cc ConditionOpcode.CREATE_COIN) (parse_create_coin args)
  | ConditionOpcode.ASSERT_SECONDS_ABSOLUTE =>
    wrapOpt (cc ConditionOpcode.ASSERT_SECONDS_ABSOLUTE) (parse_seconds args)
  | ConditionOpcode.ASSERT_SECONDS_RELATIVE =>
    wrapOpt (cc ConditionOpcode.ASSERT_SECONDS_RELATIVE) (parse_seconds args)
  | ConditionOpcode.ASSERT_HEIGHT_ABSOLUTE =>
    wrapOpt (cc ConditionOpcode.ASSERT_HEIGHT_ABSOLUTE) (parse_height args)
  | ConditionOpcode.ASSERT_HEIGHT_RELATIVE =>
    wrapOpt (cc ConditionOpcode.ASSERT_HEIGHT_RELATIVE) (parse_height args)
  | ConditionOpcode.ASSERT_MY_COIN_ID =>
    wrapSome (cc ConditionOpcode.ASSERT_MY_COIN_ID) (parse_coin_id args)
  | ConditionOpcode.RESERVE_FEE => wrapSome (cc ConditionOpcode.RESERVE_FEE) (parse_fee args)
  | ConditionOpcode.CREATE_COIN_ANNOUNCEMENT =>
    wrapSome (cc ConditionOpcode.CREATE_COIN_ANNOUNCEMENT) (parse_announcement args)
  | ConditionOpcode.ASSERT_COIN_ANNOUNCEMENT =>
    wrapSome (cc ConditionOpcode.ASSERT_COIN_ANNOUNCEMENT) (parse_hash args)
  | ConditionOpcode.CREATE_PUZZLE_ANNOUNCEMENT =>
    wrapSome (cc ConditionOpcode.CREATE_PUZZLE_ANNOUNCEMENT) (parse_announcement args)
  | ConditionOpcode.ASSERT_PUZZLE_ANNOUNCEMENT =>
    wrapSome (cc ConditionOpcode.ASSERT_PUZZLE_ANNOUNCEMENT) (parse_hash args)
  | ConditionOpcode.ASSERT_MY_PARENT_ID =>
    wrapSome (cc ConditionOpcode.ASSERT_MY_PARENT_ID) (parse_coin_id args)
  | ConditionOpcode.ASSERT_MY_PUZZLEHASH =>
    wrapSome (cc ConditionOpcode.ASSERT_MY_PUZZLEHASH) (parse_hash args)
  | ConditionOpcode.ASSERT_MY_AMOUNT =>
    wrapSome (cc ConditionOpcode.ASSERT_MY_AMOUNT) (parse_amount args)
  | ConditionOpcode.UNKNOWN => Except.error ()

def parse_condition (cc : CostTable) (cond : SExp) (safe_mode : Bool) :
    Except Unit (Nat × Option ConditionWithArgs) :=
  match cond with
  | SExp.atom _ => Except.error ()
  | SExp.pair hd tl =>
    match satom hd with
    | some b =>
      match byteToOpcode b with
      | some opcode =>
        match parse_condition_args cc tl opcode with
        | Except.error _ => Except.error ()
        | Except.ok (cost, args) =>
          Except.ok (cost, args.map (fun a => ConditionWithArgs.mk opcode a))
      | none =>
        if safe_mode then Except.error ()
        else Except.ok (0, some (ConditionWithArgs.mk ConditionOpcode.UNKNOWN (as_atom_list tl)))
    | none =>
      if safe_mode then Except.error ()
      else Except.ok (0, some (ConditionWithArgs.mk ConditionOpcode.UNKNOWN (as_atom_list tl)))

/-- Modelled from the spec: chia.util.condition_tools.conditions_by_opcode
    (not under src/) groups conditions into an insertion-ordered mapping
    opcode → list, preserving original intra-opcode order (§4.C Step 4); the
    mapping is modelled as an association list in key insertion order.
    This is one fold step: append to the existing bucket, else a new bucket. -/
def addCond (d : List (ConditionOpcode × List ConditionWithArgs)) (c : ConditionWithArgs) :
    List (ConditionOpcode × List ConditionWithArgs) :=
  match d with
  | [] => [(c.opcode, [c])]
  | (k, l) :: rest =>
    if k = c.opcode then (k, l ++ [c]) :: rest else (k, l) :: addCond rest c

/-- Modelled from the spec: see addCond. -/
def conditions_by_opcode (conditions : List ConditionWithArgs) :
    List (ConditionOpcode × List ConditionWithArgs) :=
  conditions.foldl addCond []

/-- Flattening the grouped mapping in insertion order, each per-opcode list
    left to right (the claim's round-trip companion of conditions_by_opcode). -/
def flattenGrouped (d : List (ConditionOpcode × List ConditionWithArgs)) :
    List ConditionWithArgs :=
  (d.map Prod.snd).flatten

/-- The inner `for cond in ...as_iter()` loop of get_name_puzzle_conditions:
    walks the condition list lazily; for each condition parse, charge, check
    the budget, and append unless elided. `Except.ok none` is the early
    `return NPCResult(BLOCK_COST_EXCEEDS_MAX, [], 0)`; `Except.error` is a
    raised exception. A non-empty-atom list terminator makes `first()` raise
    once reached. -/
def processConds (cc : CostTable) (safe_mode : Bool) (conds : SExp) (max_cost : Int) :
    Except Unit (Option (Int × List ConditionWithArgs)) :=
  match conds with
  | SExp.atom [] => Except.ok (some (max_cost, []))
  | SExp.atom _ => Except.error ()
  | SExp.pair c rest =>
    match parse_condition cc c safe_mode with
    | Except.error _ => Except.error ()
    | Except.ok (cost, cvl) =>
      if max_cost - cost < 0 then Except.ok none
      else
        match processConds cc safe_mode rest (max_cost - cost) with
        | Except.error _ => Except.error ()
        | Except.ok none => Except.ok none
        | Except.ok (some (mc, l)) => Except.ok (some (mc, cvl.toList ++ l))

/-- One spend record `(parent_id, puzzle_hash, amount, conditions)`:
    extract the coin fields (the amount goes through `as_int` and the checked
    uint64 coercion, both raising on bad input), run the condition loop, group,
    and build the NPC; `spent_coin.name()` is only evaluated after the
    condition loop, as in the source. -/
def processSpend (cc : CostTable) (safe_mode : Bool) (res : SExp) (max_cost : Int) :
    Except Unit (Option (Int × NPC)) :=
  match sfirst res with
  | Except.error _ => Except.error ()
  | Except.ok pS =>
    match srest res with
    | Except.error _ => Except.error ()
    | Except.ok r1 =>
      match sfirst r1 with
      | Except.error _ => Except.error ()
      | Except.ok phS =>
        match srest r1 with
        | Except.error _ => Except.error ()
        | Except.ok r2 =>
          match sfirst r2 with
          | Except.error _ => Except.error ()
          | Except.ok amtS =>
            match satom amtS with
            | none => Except.error ()
            | some amtAtom =>
              if int_from_bytes amtAtom < 0 ∨ (2 : Int) ^ 64 ≤ int_from_bytes amtAtom then
                Except.error ()
              else
                let spent_coin : Coin :=
                  Coin.mk (satom pS) (satom phS) (int_from_bytes amtAtom).toNat
                match srest r2 with
                | Except.error _ => Except.error ()
                | Except.ok r3 =>
                  match sfirst r3 with
                  | Except.error _ => Except.error ()
                  | Except.ok condsS =>
                    match processConds cc safe_mode condsS max_cost with
                    | Except.error _ => Except.error ()
                    | Except.ok none => Except.ok none
                    | Except.ok (some (mc, conditions_list)) =>
                      match Coin.name spent_coin with
                      | Except.error _ => Except.error ()
                      | Except.ok nm =>
                        Except.ok (some (mc,
                          NPC.mk nm spent_coin.puzzle_hash
                            (conditions_by_opcode conditions_list)))

/-- The outer `for res in result.first().as_iter()` loop, walked lazily. -/
def processSpends (cc : CostTable) (safe_mode : Bool) (spends : SExp) (max_cost : Int) :
    Except Unit (Option (Int × List NPC)) :=
  match spends with
  | SExp.atom [] => Except.ok (some (max_cost, []))
  | SExp.atom _ => Except.error ()
  | SExp.pair spend rest =>
    match processSpend cc safe_mode spend max_cost with
    | Except.error _ => Except.error ()
    | Except.ok none => Except.ok none
    | Except.ok (some (mc, npc)) =>
      match processSpends cc safe_mode rest mc with
      | Except.error _ => Except.error ()
      | Except.ok none => Except.ok none
      | Except.ok (some (mc2, npcs)) => Except.ok (some (mc2, npc :: npcs))

/-- The body of get_name_puzzle_conditions inside its `try`. The VM
    (GENERATOR_MOD.run_with_cost / run_safe_with_cost, outside the source) is
    an opaque parameter `vmRun safe_mode budget`, returning the pair
    `(clvm_cost, result)` or raising; `setup_ok` stands for
    setup_generator_args (also outside the source) either succeeding or
    raising, which the source runs before the byte-cost check.
    `generator_size` is `len(bytes(generator))`. The final `uint64(clvm_cost)`
    coercion raises outside [0, 2^64). -/
def npc_inner (cc : CostTable) (setup_ok : Bool) (generator_size : Nat)
    (vmRun : Bool → Int → Except Unit (Nat × SExp))
    (max_cost : Int) (cost_per_byte : Nat) (safe_mode : Bool) : Except Unit NPCResult :=
  if setup_ok = false then Except.error ()
  else if max_cost - generator_size * cost_per_byte < 0 then
    Except.ok (NPCResult.mk (some Err.BLOCK_COST_EXCEEDS_MAX) [] 0)
  else
    match vmRun safe_mode (max_cost - generator_size * cost_per_byte) with
    | Except.error _ => Except.error ()
    | Except.ok (clvm_cost, result) =>
      match sfirst result with
      | Except.error _ => Except.error ()
      | Except.ok spends =>
        match processSpends cc safe_mode spends
            (max_cost - generator_size * cost_per_byte - clvm_cost) with
        | Except.error _ => Except.error ()
        | Except.ok none => Except.ok (NPCResult.mk (some Err.BLOCK_COST_EXCEEDS_MAX) [] 0)
        | Except.ok (some (_, npcs)) =>
          if (clvm_cost : Int) < (2 : Int) ^ 64 then
            Except.ok (NPCResult.mk none npcs clvm_cost)
          else Except.error ()

/-- get_name_puzzle_conditions: npc_inner with the `except Exception` boundary
    collapsing every raised exception to GENERATOR_RUNTIME_ERROR. -/
def get_name_puzzle_conditions (cc : CostTable) (setup_ok : Bool) (generator_size : Nat)
    (vmRun : Bool → Int → Except Unit (Nat × SExp))
    (max_cost : Int) (cost_per_byte : Nat) (safe_mode : Bool) : NPCResult :=
  match npc_inner cc setup_ok generator_size vmRun max_cost cost_per_byte safe_mode with
  | Except.ok r => r
  | Except.error _ => NPCResult.mk (some Err.GENERATOR_RUNTIME_ERROR) [] 0

/-- Python `condition.vars[0]`: raises IndexError on an empty argument list. -/
def getVar0 (c : ConditionWithArgs) : Except Unit (List Nat) :=
  match c.vars with
  | [] => Except.error ()
  | v :: _ => Except.ok v

/-- mempool_assert_announcement. The Python `bytes32(condition.vars[0])`
    coercion is modelled from the spec (§4.B): the checker tests membership of
    arg[0] in the announcement set (sized-bytes construction is outside the
    source file). -/
def mempool_assert_announcement (condition : ConditionWithArgs)
    (announcements : List (List Nat)) : Except Unit (Option Err) :=
  match getVar0 condition with
  | Except.error _ => Except.error ()
  | Except.ok announcement_hash =>
    if announcement_hash ∈ announcements then Except.ok none
    else Except.ok (some Err.ASSERT_ANNOUNCE_CONSUMED_FAILED)

def mempool_assert_my_coin_id (condition : ConditionWithArgs) (unspent : CoinRecord) :
    Except Unit (Option Err) :=
  match Coin.name unspent.coin with
  | Except.error _ => Except.error ()
  | Except.ok nm =>
    match getVar0 condition with
    | Except.error _ => Except.error ()
    | Except.ok v =>
      if nm ≠ v then Except.ok (some Err.ASSERT_MY_COIN_ID_FAILED) else Except.ok none

/-- int_from_bytes is total, so the Python `except ValueError` branch that
    returns INVALID_CONDITION is unreachable and has no counterpart here. -/
def mempool_assert_absolute_block_height_exceeds (condition : ConditionWithArgs)
    (prev_transaction_block_height : Nat) : Except Unit (Option Err) :=
  match getVar0 condition with
  | Except.error _ => Except.error ()
  | Except.ok v =>
    if (prev_transaction_block_height : Int) < int_from_bytes v then
      Except.ok (some Err.ASSERT_HEIGHT_ABSOLUTE_FAILED)
    else Except.ok none

def mempool_assert_relative_block_height_exceeds (condition : ConditionWithArgs)
    (unspent : CoinRecord) (prev_transaction_block_height : Nat) : Except Unit (Option Err) :=
  match getVar0 condition with
  | Except.error _ => Except.error ()
  | Except.ok v =>
    if (prev_transaction_block_height : Int) <
        int_from_bytes v + unspent.confirmed_block_index then
      Except.ok (some Err.ASSERT_HEIGHT_RELATIVE_FAILED)
    else Except.ok none

/-- The Python `if timestamp is None` fallback to the wall clock is dead code
    under the typed uint64 contract and has no counterpart here. -/
def mempool_assert_absolute_time_exceeds (condition : ConditionWithArgs)
    (timestamp : Nat) : Except Unit (Option Err) :=
  match getVar0 condition with
  | Except.error _ => Except.error ()
  | Except.ok v =>
    if (timestamp : Int) < int_from_bytes v then
      Except.ok (some Err.ASSERT_SECONDS_ABSOLUTE_FAILED)
    else Except.ok none

def mempool_assert_relative_time_exceeds (condition : ConditionWithArgs)
    (unspent : CoinRecord) (timestamp : Nat) : Except Unit (Option Err) :=
  match getVar0 condition with
  | Except.error _ => Except.error ()
  | Except.ok v =>
    if (timestamp : Int) < int_from_bytes v + unspent.timestamp then
      Except.ok (some Err.ASSERT_SECONDS_RELATIVE_FAILED)
    else Except.ok none

/-- Python compares `unspent.coin.parent_coin_info != condition.vars[0]`; a
    None field simply compares unequal to any bytes, it does not raise. -/
def mempool_assert_my_parent_id (condition : ConditionWithArgs) (unspent : CoinRecord) :
    Except Unit (Option Err) :=
  match getVar0 condition with
  | Except.error _ => Except.error ()
  | Except.ok v =>
    if unspent.coin.parent_coin_info ≠ some v then
      Except.ok (some Err.ASSERT_MY_PARENT_ID_FAILED)
    else Except.ok none

def mempool_assert_my_puzzlehash (condition : ConditionWithArgs) (unspent : CoinRecord) :
    Except Unit (Option Err) :=
  match getVar0 condition with
  | Except.error _ => Except.error ()
  | Except.ok v =>
    if unspent.coin.puzzle_hash ≠ some v then
      Except.ok (some Err.ASSERT_MY_PUZZLEHASH_FAILED)
    else Except.ok none

def mempool_assert_my_amount (condition : ConditionWithArgs) (unspent : CoinRecord) :
    Except Unit (Option Err) :=
  match getVar0 condition with
  | Except.error _ => Except.error ()
  | Except.ok v =>
    if (unspent.coin.amount : Int) ≠ int_from_bytes v then
      Except.ok (some Err.ASSERT_MY_AMOUNT_FAILED)
    else Except.ok none

/-- The per-opcode dispatch of mempool_check_conditions_dict; opcodes with no
    checker leave `error = None`. -/
def check_condition (unspent : CoinRecord) (coin_announcement_names : List (List Nat))
    (puzzle_announcement_names : List (List Nat))
    (prev_transaction_block_height : Nat) (timestamp : Nat)
    (cvp : ConditionWithArgs) : Except Unit (Option Err) :=
  match cvp.opcode with
  | ConditionOpcode.ASSERT_MY_COIN_ID => mempool_assert_my_coin_id cvp unspent
  | ConditionOpcode.ASSERT_COIN_ANNOUNCEMENT =>
    mempool_assert_announcement cvp coin_announcement_names
  | ConditionOpcode.ASSERT_PUZZLE_ANNOUNCEMENT =>
    mempool_assert_announcement cvp puzzle_announcement_names
  | ConditionOpcode.ASSERT_HEIGHT_ABSOLUTE =>
    mempool_assert_absolute_block_height_exceeds cvp prev_transaction_block_height
  | ConditionOpcode.ASSERT_HEIGHT_RELATIVE =>
    mempool_assert_relative_block_height_exceeds cvp unspent prev_transaction_block_height
  | ConditionOpcode.ASSERT_SECONDS_ABSOLUTE =>
    mempool_assert_absolute_time_exceeds cvp timestamp
  | ConditionOpcode.ASSERT_SECONDS_RELATIVE =>
    mempool_assert_relative_time_exceeds cvp unspent timestamp
  | ConditionOpcode.ASSERT_MY_PARENT_ID => mempool_assert_my_parent_id cvp unspent
  | ConditionOpcode.ASSERT_MY_PUZZLEHASH => mempool_assert_my_puzzlehash cvp unspent
  | ConditionOpcode.ASSERT_MY_AMOUNT => mempool_assert_my_amount cvp unspent
  | _ => Except.ok none

/-- The inner `for cvp in con_list` loop: first error returns. -/
def checkCondList (unspent : CoinRecord) (cset pset : List (List Nat))
    (prevH ts : Nat) : List ConditionWithArgs → Except Unit (Option Err)
  | [] => Except.ok none
  | c :: rest =>
    match check_condition unspent cset pset prevH ts c with
    | Except.error _ => Except.error ()
    | Except.ok (some e) => Except.ok (some e)
    | Except.ok none => checkCondList unspent cset pset prevH ts rest

/-- The outer `for con_list in conditions_dict.values()` loop. -/
def checkDictLists (unspent : CoinRecord) (cset pset : List (List Nat))
    (prevH ts : Nat) : List (List ConditionWithArgs) → Except Unit (Option Err)
  | [] => Except.ok none
  | l :: rest =>
    match checkCondList unspent cset pset prevH ts l with
    | Except.error _ => Except.error ()
    | Except.ok (some e) => Except.ok (some e)
    | Except.ok none => checkDictLists unspent cset pset prevH ts rest

/-- mempool_check_conditions_dict over the insertion-ordered mapping,
    modelled as an association list; iteration order of `.values()` is the
    list order. -/
def mempool_check_conditions_dict (unspent : CoinRecord)
    (coin_announcement_names puzzle_announcement_names : List (List Nat))
    (conditions_dict : List (ConditionOpcode × List ConditionWithArgs))
    (prev_transaction_block_height : Nat) (timestamp : Nat) : Except Unit (Option Err) :=
  checkDictLists unspent coin_announcement_names puzzle_announcement_names
    prev_transaction_block_height timestamp (conditions_dict.map Prod.snd)

/-- Declared argument arity of each opcode (§4.A table). -/
def arity : ConditionOpcode → Nat
  | ConditionOpcode.AGG_SIG_UNSAFE => 2
  | ConditionOpcode.AGG_SIG_ME => 2
  | ConditionOpcode.CREATE_COIN => 2
  | ConditionOpcode.UNKNOWN => 0
  | _ => 1

/-- Descend n pairs into an argument list, if that many are present. -/
def tailAfter : Nat → SExp → Option SExp
  | 0, s => some s
  | n + 1, SExp.pair _ t => tailAfter n t
  | _ + 1, SExp.atom _ => none

/-- The declared per-opcode argument shape (§4.A table): atom lengths and
    decoded numeric ranges of a returned argument vector. -/
def argShapeOk : ConditionOpcode → List (List Nat) → Bool
  | ConditionOpcode.AGG_SIG_UNSAFE, [pk, msg] =>
    pk.length == 48 && decide (msg.length ≤ 1024)
  | ConditionOpcode.AGG_SIG_ME, [pk, msg] =>
    pk.length == 48 && decide (msg.length ≤ 1024)
  | ConditionOpcode.CREATE_COIN, [ph, am] =>
    ph.length == 32 && decide (0 ≤ int_from_bytes am) &&
      decide (int_from_bytes am < (2 : Int) ^ 64)
  | ConditionOpcode.ASSERT_SECONDS_ABSOLUTE, [s] =>
    decide (0 < int_from_bytes s) && decide (int_from_bytes s < (2 : Int) ^ 64)
  | ConditionOpcode.ASSERT_SECONDS_RELATIVE, [s] =>
    decide (0 < int_from_bytes s) && decide (int_from_bytes s < (2 : Int) ^ 64)
  | ConditionOpcode.ASSERT_HEIGHT_ABSOLUTE, [hv] =>
    decide (0 < int_from_bytes hv) && decide (int_from_bytes hv < (2 : Int) ^ 32)
  | ConditionOpcode.ASSERT_HEIGHT_RELATIVE, [hv] =>
    decide (0 < int_from_bytes hv) && decide (int_from_bytes hv < (2 : Int) ^ 32)
  | ConditionOpcode.ASSERT_MY_COIN_ID, [x] => x.length == 32
  | ConditionOpcode.ASSERT_MY_PARENT_ID, [x] => x.length == 32
  | ConditionOpcode.ASSERT_MY_PUZZLEHASH, [x] => x.length == 32
  | ConditionOpcode.ASSERT_COIN_ANNOUNCEMENT, [x] => x.length == 32
  | ConditionOpcode.ASSERT_PUZZLE_ANNOUNCEMENT, [x] => x.length == 32
  | ConditionOpcode.RESERVE_FEE, [f] =>
    decide (0 ≤ int_from_bytes f) && decide (int_from_bytes f < (2 : Int) ^ 64)
  | ConditionOpcode.ASSERT_MY_AMOUNT, [a] =>
    decide (0 ≤ int_from_bytes a) && decide (int_from_bytes a < (2 : Int) ^ 64)
  | ConditionOpcode.CREATE_COIN_ANNOUNCEMENT, [m] => decide (m.length ≤ 1024)
  | ConditionOpcode.CREATE_PUZZLE_ANNOUNCEMENT, [m] => decide (m.length ≤ 1024)
  | _, _ => false

/-- Build a proper (empty-atom-terminated) SExp list. -/
def sexpList : List SExp → SExp
  | [] => SExp.atom []
  | x :: xs => SExp.pair x (sexpList xs)

/-- A cost table charging nothing (concrete instance for witnesses). -/
def cc0 : CostTable := fun _ => 0

/-- A cost table charging 5 for ASSERT_SECONDS_ABSOLUTE and nothing else
    (concrete instance for witnesses and counterexamples). -/
def ccSec : CostTable :=
  fun op => if op = ConditionOpcode.ASSERT_SECONDS_ABSOLUTE then 5 else 0

/-- A VM outcome: cost 7, no spends. -/
def vmNil : Bool → Int → Except Unit (Nat × SExp) :=
  fun _ _ => Except.ok (7, SExp.pair (SExp.atom []) (SExp.atom []))

/-- A VM outcome that reports cost 50 regardless of the budget it was given,
    with no spends. -/
def vmBig50 : Bool → Int → Except Unit (Nat × SExp) :=
  fun _ _ => Except.ok (50, SExp.pair (SExp.atom []) (SExp.atom []))

/-- A VM that raises. -/
def vmErr : Bool → Int → Except Unit (Nat × SExp) :=
  fun _ _ => Except.error ()

/-- The condition `ASSERT_SECONDS_ABSOLUTE 1`. -/
def posSecCond : SExp := sexpList [SExp.atom [81], SExp.atom [1]]

/-- A well-formed spend whose single condition costs 5 under ccSec. -/
def spendPos : SExp :=
  sexpList [SExp.atom (List.replicate 32 1), SExp.atom (List.replicate 32 2),
    SExp.atom [3], sexpList [posSecCond]]

/-- A spend record whose amount atom decodes to 2^64 (out of uint64 range). -/
def spendBadAmount : SExp :=
  sexpList [SExp.atom (List.replicate 32 1), SExp.atom (List.replicate 32 2),
    SExp.atom [1, 0, 0, 0, 0, 0, 0, 0, 0], sexpList []]

/-- VM outcome: cost 7, spends = [spendPos, spendBadAmount]. -/
def vmPosThenBad : Bool → Int → Except Unit (Nat × SExp) :=
  fun _ _ => Except.ok (7, SExp.pair (sexpList [spendPos, spendBadAmount]) (SExp.atom []))

/-- A condition with unknown opcode byte 1 and two atom arguments. -/
def unknownCondTail : SExp := sexpList [SExp.atom [7], SExp.atom [8]]

/-- A well-formed spend carrying only that unknown condition. -/
def spendUnknown : SExp :=
  sexpList [SExp.atom (List.replicate 32 1), SExp.atom (List.replicate 32 2),
    SExp.atom [3], sexpList [SExp.pair (SExp.atom [1]) unknownCondTail]]

/-- VM outcome: cost 7, single spend spendUnknown. -/
def vmUnknown : Bool → Int → Except Unit (Nat × SExp) :=
  fun _ _ => Except.ok (7, SExp.pair (sexpList [spendUnknown]) (SExp.atom []))

/-- The ten opcodes for which mempool_check_conditions_dict invokes a checker. -/
def checkedOpcodes : List ConditionOpcode :=
  [ConditionOpcode.ASSERT_MY_COIN_ID, ConditionOpcode.ASSERT_COIN_ANNOUNCEMENT,
   ConditionOpcode.ASSERT_PUZZLE_ANNOUNCEMENT, ConditionOpcode.ASSERT_HEIGHT_ABSOLUTE,
   ConditionOpcode.ASSERT_HEIGHT_RELATIVE, ConditionOpcode.ASSERT_SECONDS_ABSOLUTE,
   ConditionOpcode.ASSERT_SECONDS_RELATIVE, ConditionOpcode.ASSERT_MY_PARENT_ID,
   ConditionOpcode.ASSERT_MY_PUZZLEHASH, ConditionOpcode.ASSERT_MY_AMOUNT]


/-- Bucket contents carry their key's opcode (invariant of the grouped dict). -/
def bucketInv (d : List (ConditionOpcode × List ConditionWithArgs)) : Prop :=
  ∀ p ∈ d, ∀ c ∈ p.2, c.opcode = p.1

/-- Concrete conditions for exercising the grouping round-trip. -/
def cwA : ConditionWithArgs := ConditionWithArgs.mk ConditionOpcode.ASSERT_MY_COIN_ID []

/-- See cwA. -/
def cwB : ConditionWithArgs := ConditionWithArgs.mk ConditionOpcode.ASSERT_MY_PARENT_ID []

/-- See cwA; same opcode as cwA, different args. -/
def cwA2 : ConditionWithArgs := ConditionWithArgs.mk ConditionOpcode.ASSERT_MY_COIN_ID [[1]]

/-- VM outcome: cost 7, single spend spendBadAmount (amount decodes to 2^64). -/
def vmBadOnly : Bool → Int → Except Unit (Nat × SExp) :=
  fun _ _ => Except.ok (7, SExp.pair (sexpList [spendBadAmount]) (SExp.atom []))

/-- A concrete well-formed coin record for exercising the evaluator. -/
def uRec : CoinRecord :=
  CoinRecord.mk (Coin.mk (some (List.replicate 32 1)) (some (List.replicate 32 2)) 5) 3 9

/-- The NPC produced for spendPos (its ASSERT_SECONDS_ABSOLUTE 1 survives). -/
def npcPos : NPC :=
  NPC.mk (List.replicate 32 1 ++ List.replicate 32 2 ++ [3])
    (some (List.replicate 32 2))
    [(ConditionOpcode.ASSERT_SECONDS_ABSOLUTE,
      [ConditionWithArgs.mk ConditionOpcode.ASSERT_SECONDS_ABSOLUTE [[1]]])]

/-- The spend iteration of get_name_puzzle_conditions, run on `spends` with
    the given remaining budget, reaches a spend record whose third element
    (the amount) decodes outside [0, 2^64) before any budget check fails:
    either the head spend is such a record, or the head spend is processed
    successfully (within budget, raising nothing) and the iteration reaches
    one in the remaining spends with the budget the head left over. -/
inductive ReachesBadAmount (cc : CostTable) (sm : Bool) : SExp → Int → Prop where
  | head (p hsh t spendsTail : SExp) (v : List Nat) (budget : Int)
      (hv : int_from_bytes v < 0 ∨ (2 : Int) ^ 64 ≤ int_from_bytes v) :
      ReachesBadAmount cc sm
        (SExp.pair (SExp.pair p (SExp.pair hsh (SExp.pair (SExp.atom v) t))) spendsTail)
        budget
  | step (s rest : SExp) (budget mc : Int) (npc : NPC)
      (hs : processSpend cc sm s budget = Except.ok (some (mc, npc)))
      (hrest : ReachesBadAmount cc sm rest mc) :
      ReachesBadAmount cc sm (SExp.pair s rest) budget

@[simp] theorem flattenGrouped_nil : flattenGrouped [] = [] := rfl

@[simp] theorem flattenGrouped_cons (k : ConditionOpcode) (l : List ConditionWithArgs)
    (d : List (ConditionOpcode × List ConditionWithArgs)) :
    flattenGrouped ((k, l) :: d) = l ++ flattenGrouped d := rfl

theorem flattenGrouped_addCond_perm (d : List (ConditionOpcode × List ConditionWithArgs))
    (c : ConditionWithArgs) :
    (flattenGrouped (addCond d c)).Perm (flattenGrouped d ++ [c]) := by
  induction d with
  | nil => simp [addCond, List.Perm.refl]
  | cons p rest ih =>
    obtain ⟨k, l⟩ := p
    by_cases hk : k = c.opcode
    · simp only [addCond, if_pos hk, flattenGrouped_cons]
      rw [List.append_assoc, List.append_assoc]
      exact List.Perm.append_left l List.perm_append_comm
    · simp only [addCond, if_neg hk, flattenGrouped_cons]
      rw [List.append_assoc]
      exact List.Perm.append_left l ih

theorem flattenGrouped_foldl_perm (l : List ConditionWithArgs)
    (d : List (ConditionOpcode × List ConditionWithArgs)) :
    (flattenGrouped (l.foldl addCond d)).Perm (flattenGrouped d ++ l) := by
  induction l generalizing d with
  | nil => simpa using List.Perm.refl (flattenGrouped d)
  | cons c cs ih =>
    have h1 := ih (addCond d c)
    have h2 := (flattenGrouped_addCond_perm d c).append_right cs
    have h3 : (flattenGrouped d ++ [c]) ++ cs = flattenGrouped d ++ (c :: cs) := by simp
    have h4 := h1.trans h2
    rw [h3] at h4
    simpa [List.foldl_cons] using h4

theorem bucketInv_nil : bucketInv [] := by intro p hp; cases hp

theorem bucketInv_addCond {d : List (ConditionOpcode × List ConditionWithArgs)}
    (c : ConditionWithArgs) (hinv : bucketInv d) : bucketInv (addCond d c) := by
  induction d with
  | nil =>
    intro p hp x hx
    simp [addCond] at hp
    subst hp
    simp at hx
    subst hx
    rfl
  | cons q rest ih =>
    obtain ⟨k, l⟩ := q
    have hrest : bucketInv rest := fun p hp => hinv p (List.mem_cons_of_mem _ hp)
    have hhead := hinv (k, l) (List.mem_cons_self _ _)
    by_cases hk : k = c.opcode
    · intro p hp x hx
      simp only [addCond, if_pos hk] at hp
      rcases List.mem_cons.mp hp with h | h
      · subst h
        rcases List.mem_append.mp hx with h2 | h2
        · exact hhead x h2
        · simp at h2
          subst h2
          exact hk.symm
      · exact hrest p h x hx
    · intro p hp x hx
      simp only [addCond, if_neg hk] at hp
      rcases List.mem_cons.mp hp with h | h
      · subst h
        exact hhead x hx
      · exact ih hrest p h x hx

theorem keys_addCond (d : List (ConditionOpcode × List ConditionWithArgs))
    (c : ConditionWithArgs) :
    (addCond d c).map Prod.fst =
      if c.opcode ∈ d.map Prod.fst then d.map Prod.fst
      else d.map Prod.fst ++ [c.opcode] := by
  induction d with
  | nil => simp [addCond]
  | cons q rest ih =>
    obtain ⟨k, l⟩ := q
    by_cases hk : k = c.opcode
    · simp [addCond, hk]
    · have hne : c.opcode ≠ k := fun h => hk h.symm
      simp only [addCond, if_neg hk, List.map_cons, ih]
      by_cases hm : c.opcode ∈ rest.map Prod.fst
      · rw [if_pos hm, if_pos (by simp [List.mem_cons, hm])]
      · rw [if_neg hm, if_neg (by simp [List.mem_cons, hne, hm])]
        simp

theorem keysNodup_addCond {d : List (ConditionOpcode × List ConditionWithArgs)}
    (c : ConditionWithArgs) (hnd : (d.map Prod.fst).Nodup) :
    ((addCond d c).map Prod.fst).Nodup := by
  rw [keys_addCond]
  by_cases hm : c.opcode ∈ d.map Prod.fst
  · simpa [hm] using hnd
  · simp [hm, List.nodup_append, hnd]

theorem filter_flattenGrouped_of_not_key {d : List (ConditionOpcode × List ConditionWithArgs)}
    {k : ConditionOpcode} (hinv : bucketInv d) (hk : k ∉ d.map Prod.fst) :
    (flattenGrouped d).filter (fun x => decide (x.opcode = k)) = [] := by
  apply List.filter_eq_nil_iff.mpr
  intro a ha
  obtain ⟨l, hl, hal⟩ := List.mem_flatten.mp ha
  obtain ⟨p, hp, rfl⟩ := List.mem_map.mp hl
  have := hinv p hp a hal
  simp only [decide_eq_true_eq]
  intro hak
  exact hk (List.mem_map.mpr ⟨p, hp, by rw [← this, hak]⟩)

theorem filter_flattenGrouped_addCond
    {d : List (ConditionOpcode × List ConditionWithArgs)} (c : ConditionWithArgs)
    (k : ConditionOpcode) (hinv : bucketInv d) (hnd : (d.map Prod.fst).Nodup) :
    (flattenGrouped (addCond d c)).filter (fun x => decide (x.opcode = k))
      = (flattenGrouped d).filter (fun x => decide (x.opcode = k))
        ++ [c].filter (fun x => decide (x.opcode = k)) := by
  induction d with
  | nil => simp [addCond, flattenGrouped]
  | cons q rest ih =>
    obtain ⟨k0, l⟩ := q
    have hrest : bucketInv rest := fun p hp => hinv p (List.mem_cons_of_mem _ hp)
    have hndrest : (rest.map Prod.fst).Nodup := by
      simpa [List.map_cons] using (List.nodup_cons.mp (by simpa using hnd)).2
    by_cases hk0 : k0 = c.opcode
    · simp only [addCond, if_pos hk0, flattenGrouped_cons, List.filter_append]
      by_cases hck : c.opcode = k
      · have hF : (flattenGrouped rest).filter (fun x => decide (x.opcode = k)) = [] := by
          apply filter_flattenGrouped_of_not_key hrest
          have : k0 ∉ rest.map Prod.fst := (List.nodup_cons.mp (by simpa using hnd)).1
          rw [← hck, ← hk0]
          exact this
        simp [hF, List.filter_append]
      · have hc : [c].filter (fun x => decide (x.opcode = k)) = [] := by simp [hck]
        simp [hc, List.filter_append]
    · simp only [addCond, if_neg hk0, flattenGrouped_cons, List.filter_append,
        ih hrest hndrest]
      simp [List.append_assoc]

theorem filter_flattenGrouped_foldl (l : List ConditionWithArgs)
    (d : List (ConditionOpcode × List ConditionWithArgs)) (k : ConditionOpcode)
    (hinv : bucketInv d) (hnd : (d.map Prod.fst).Nodup) :
    (flattenGrouped (l.foldl addCond d)).filter (fun x => decide (x.opcode = k))
      = (flattenGrouped d).filter (fun x => decide (x.opcode = k))
        ++ l.filter (fun x => decide (x.opcode = k)) := by
  induction l generalizing d with
  | nil => simp
  | cons c cs ih =>
    have h1 := ih (addCond d c) (bucketInv_addCond c hinv) (keysNodup_addCond c hnd)
    have h2 := filter_flattenGrouped_addCond c k hinv hnd
    simp only [List.foldl_cons, h1, h2, List.append_assoc]
    congr 1
    simp [List.filter_cons]
    by_cases hck : c.opcode = k <;> simp [hck]

/-- C6 (amended): grouping a condition sequence by opcode into the
    insertion-ordered mapping and flattening that mapping in insertion order
    (each per-opcode list left to right) yields a permutation of the original
    sequence that preserves the relative order of equal-opcode conditions; it
    is not in general the original sequence itself. -/
theorem conditions_by_opcode_flatten_perm (l : List ConditionWithArgs) :
    (flattenGrouped (conditions_by_opcode l)).Perm l ∧
    ∀ k : ConditionOpcode,
      (flattenGrouped (conditions_by_opcode l)).filter (fun c => decide (c.opcode = k))
        = l.filter (fun c => decide (c.opcode = k)) := by
  constructor
  · simpa [conditions_by_opcode] using flattenGrouped_foldl_perm l []
  · intro k
    simpa [conditions_by_opcode] using
      filter_flattenGrouped_foldl l [] k bucketInv_nil (by simp)

/-- C6 (counterexample): for the sequence [cwA, cwB, cwA2] whose equal-opcode
    conditions are not contiguous, grouping by opcode and flattening in
    insertion order reorders the sequence, so the round-trip does not return
    the original. -/
theorem conditions_by_opcode_flatten_not_id :
    flattenGrouped (conditions_by_opcode [cwA, cwB, cwA2]) ≠ [cwA, cwB, cwA2] := by
  decide

/-- C8: mempool_check_conditions_dict is deterministic: two evaluations with
    identical inputs (coin record, announcement sets, conditions mapping,
    previous transaction block height, timestamp) return the same verdict.
    The embedding is a pure function of its inputs; the only potential
    nondeterminism in the source, the wall-clock fallback in the time checkers,
    is dead code under the typed uint64 timestamp contract. -/
theorem mempool_check_conditions_dict_deterministic
    (u1 u2 : CoinRecord) (c1 c2 p1 p2 : List (List Nat))
    (d1 d2 : List (ConditionOpcode × List ConditionWithArgs)) (h1 h2 t1 t2 : Nat)
    (hu : u1 = u2) (hc : c1 = c2) (hp : p1 = p2) (hd : d1 = d2) (hh : h1 = h2)
    (ht : t1 = t2) :
    mempool_check_conditions_dict u1 c1 p1 d1 h1 t1
      = mempool_check_conditions_dict u2 c2 p2 d2 h2 t2 := by
  subst hu; subst hc; subst hp; subst hd; subst hh; subst ht; rfl

/-- C8 witness at a concrete context. -/
theorem mempool_check_conditions_dict_deterministic_witness :
    mempool_check_conditions_dict
        (CoinRecord.mk (Coin.mk (some []) (some []) 0) 0 0) [] [] [] 0 0
      = mempool_check_conditions_dict
        (CoinRecord.mk (Coin.mk (some []) (some []) 0) 0 0) [] [] [] 0 0 :=
  mempool_check_conditions_dict_deterministic
    (CoinRecord.mk (Coin.mk (some []) (some []) 0) 0 0)
    (CoinRecord.mk (Coin.mk (some []) (some []) 0) 0 0)
    [] [] [] [] [] [] 0 0 0 0 rfl rfl rfl rfl rfl rfl

/-- C4: in mempool_check_conditions_dict the four time/height assertions pass
    exactly under the non-strict comparison — ASSERT_HEIGHT_ABSOLUTE iff
    decode(arg[0]) ≤ prev_height, ASSERT_HEIGHT_RELATIVE iff
    decode(arg[0]) + coin.confirmed_block_index ≤ prev_height,
    ASSERT_SECONDS_ABSOLUTE iff decode(arg[0]) ≤ timestamp,
    ASSERT_SECONDS_RELATIVE iff decode(arg[0]) + coin.timestamp ≤ timestamp —
    and otherwise return the respective failure kind. -/
theorem assert_time_height_nonstrict (unspent : CoinRecord)
    (cset pset : List (List Nat)) (prevH ts : Nat) (v : List Nat)
    (rest : List (List Nat)) :
    (mempool_check_conditions_dict unspent cset pset
        [(ConditionOpcode.ASSERT_HEIGHT_ABSOLUTE,
          [ConditionWithArgs.mk ConditionOpcode.ASSERT_HEIGHT_ABSOLUTE (v :: rest)])]
        prevH ts
      = Except.ok (if int_from_bytes v ≤ (prevH : Int) then none
          else some Err.ASSERT_HEIGHT_ABSOLUTE_FAILED))
  ∧ (mempool_check_conditions_dict unspent cset pset
        [(ConditionOpcode.ASSERT_HEIGHT_RELATIVE,
          [ConditionWithArgs.mk ConditionOpcode.ASSERT_HEIGHT_RELATIVE (v :: rest)])]
        prevH ts
      = Except.ok (if int_from_bytes v + (unspent.confirmed_block_index : Int) ≤ (prevH : Int)
          then none else some Err.ASSERT_HEIGHT_RELATIVE_FAILED))
  ∧ (mempool_check_conditions_dict unspent cset pset
        [(ConditionOpcode.ASSERT_SECONDS_ABSOLUTE,
          [ConditionWithArgs.mk ConditionOpcode.ASSERT_SECONDS_ABSOLUTE (v :: rest)])]
        prevH ts
      = Except.ok (if int_from_bytes v ≤ (ts : Int) then none
          else some Err.ASSERT_SECONDS_ABSOLUTE_FAILED))
  ∧ (mempool_check_conditions_dict unspent cset pset
        [(ConditionOpcode.ASSERT_SECONDS_RELATIVE,
          [ConditionWithArgs.mk ConditionOpcode.ASSERT_SECONDS_RELATIVE (v :: rest)])]
        prevH ts
      = Except.ok (if int_from_bytes v + (unspent.timestamp : Int) ≤ (ts : Int)
          then none else some Err.ASSERT_SECONDS_RELATIVE_FAILED)) := by
  refine ⟨?_, ?_, ?_, ?_⟩
  · by_cases h : (prevH : Int) < int_from_bytes v
    · simp [mempool_check_conditions_dict, checkDictLists, checkCondList, check_condition,
        mempool_assert_absolute_block_height_exceeds, getVar0, h, not_le.mpr h]
    · simp [mempool_check_conditions_dict, checkDictLists, checkCondList, check_condition,
        mempool_assert_absolute_block_height_exceeds, getVar0, h, not_lt.mp h]
  · by_cases h : (prevH : Int) < int_from_bytes v + (unspent.confirmed_block_index : Int)
    · simp [mempool_check_conditions_dict, checkDictLists, checkCondList, check_condition,
        mempool_assert_relative_block_height_exceeds, getVar0, h, not_le.mpr h]
    · simp [mempool_check_conditions_dict, checkDictLists, checkCondList, check_condition,
        mempool_assert_relative_block_height_exceeds, getVar0, h, not_lt.mp h]
  · by_cases h : (ts : Int) < int_from_bytes v
    · simp [mempool_check_conditions_dict, checkDictLists, checkCondList, check_condition,
        mempool_assert_absolute_time_exceeds, getVar0, h, not_le.mpr h]
    · simp [mempool_check_conditions_dict, checkDictLists, checkCondList, check_condition,
        mempool_assert_absolute_time_exceeds, getVar0, h, not_lt.mp h]
  · by_cases h : (ts : Int) < int_from_bytes v + (unspent.timestamp : Int)
    · simp [mempool_check_conditions_dict, checkDictLists, checkCondList, check_condition,
        mempool_assert_relative_time_exceeds, getVar0, h, not_le.mpr h]
    · simp [mempool_check_conditions_dict, checkDictLists, checkCondList, check_condition,
        mempool_assert_relative_time_exceeds, getVar0, h, not_lt.mp h]

theorem wrapSome_ok {cost : Nat} {r : Except Unit (List (List Nat))} {cost2 : Nat}
    {lst : List (List Nat)} (h : wrapSome cost r = Except.ok (cost2, some lst)) :
    r = Except.ok lst := by
  unfold wrapSome at h
  split at h
  · exact absurd h (by simp)
  · simp_all

theorem wrapOpt_ok_some {cost : Nat} {r : Except Unit (Option (List (List Nat)))}
    {cost2 : Nat} {lst : List (List Nat)}
    (h : wrapOpt cost r = Except.ok (cost2, some lst)) :
    r = Except.ok (some lst) := by
  unfold wrapOpt at h
  split at h
  · exact absurd h (by simp)
  · simp_all

theorem parse_aggsig_ok {args : SExp} {l : List (List Nat)}
    (h : parse_aggsig args = Except.ok l) :
    ∃ pk msg, l = [pk, msg] ∧ pk.length = 48 ∧ msg.length ≤ 1024 := by
  unfold parse_aggsig at h
  repeat' split at h
  all_goals simp at h
  subst h
  exact ⟨_, _, rfl, by assumption, by assumption⟩

theorem parse_create_coin_ok {args : SExp} {l : List (List Nat)}
    (h : parse_create_coin args = Except.ok l) :
    ∃ ph am, l = [ph, am] ∧ ph.length = 32 ∧ 0 ≤ int_from_bytes am ∧
      int_from_bytes am < (2 : Int) ^ 64 := by
  unfold parse_create_coin at h
  repeat' split at h
  all_goals simp at h
  subst h
  refine ⟨_, _, rfl, by assumption, ?_, ?_⟩ <;> omega

theorem parse_seconds_ok {args : SExp} {l : List (List Nat)}
    (h : parse_seconds args = Except.ok (some l)) :
    ∃ s, l = [s] ∧ 0 < int_from_bytes s ∧ int_from_bytes s < (2 : Int) ^ 64 := by
  unfold parse_seconds at h
  repeat' split at h
  all_goals simp at h
  subst h
  refine ⟨_, rfl, ?_, ?_⟩ <;> omega

theorem parse_height_ok {args : SExp} {l : List (List Nat)}
    (h : parse_height args = Except.ok (some l)) :
    ∃ hv, l = [hv] ∧ 0 < int_from_bytes hv ∧ int_from_bytes hv < (2 : Int) ^ 32 := by
  unfold parse_height at h
  repeat' split at h
  all_goals simp at h
  subst h
  refine ⟨_, rfl, ?_, ?_⟩ <;> omega

theorem parse_fee_ok {args : SExp} {l : List (List Nat)}
    (h : parse_fee args = Except.ok l) :
    ∃ f, l = [f] ∧ 0 ≤ int_from_bytes f ∧ int_from_bytes f < (2 : Int) ^ 64 := by
  unfold parse_fee at h
  repeat' split at h
  all_goals simp at h
  subst h
  refine ⟨_, rfl, ?_, ?_⟩ <;> omega

theorem parse_amount_ok {args : SExp} {l : List (List Nat)}
    (h : parse_amount args = Except.ok l) :
    ∃ a, l = [a] ∧ 0 ≤ int_from_bytes a ∧ int_from_bytes a < (2 : Int) ^ 64 := by
  unfold parse_amount at h
  repeat' split at h
  all_goals simp at h
  subst h
  refine ⟨_, rfl, ?_, ?_⟩ <;> omega

theorem parse_coin_id_ok {args : SExp} {l : List (List Nat)}
    (h : parse_coin_id args = Except.ok l) :
    ∃ x, l = [x] ∧ x.length = 32 := by
  unfold parse_coin_id at h
  repeat' split at h
  all_goals simp at h
  subst h
  exact ⟨_, rfl, by assumption⟩

theorem parse_hash_ok {args : SExp} {l : List (List Nat)}
    (h : parse_hash args = Except.ok l) :
    ∃ x, l = [x] ∧ x.length = 32 := by
  unfold parse_hash at h
  repeat' split at h
  all_goals simp at h
  subst h
  exact ⟨_, rfl, by assumption⟩

theorem parse_announcement_ok {args : SExp} {l : List (List Nat)}
    (h : parse_announcement args = Except.ok l) :
    ∃ m, l = [m] ∧ m.length ≤ 1024 := by
  unfold parse_announcement at h
  repeat' split at h
  all_goals simp at h
  subst h
  exact ⟨_, rfl, by assumption⟩

@[simp] theorem satom_atom (a : List Nat) : satom (SExp.atom a) = some a := rfl

@[simp] theorem satom_pair (x y : SExp) : satom (SExp.pair x y) = none := rfl

@[simp] theorem sfirst_atom (a : List Nat) : sfirst (SExp.atom a) = Except.error () := rfl

@[simp] theorem sfirst_pair (x y : SExp) : sfirst (SExp.pair x y) = Except.ok x := rfl

@[simp] theorem srest_atom (a : List Nat) : srest (SExp.atom a) = Except.error () := rfl

@[simp] theorem srest_pair (x y : SExp) : srest (SExp.pair x y) = Except.ok y := rfl

theorem parse_aggsig_trailing (a b r : SExp) (hr : r ≠ SExp.atom []) :
    parse_aggsig (SExp.pair a (SExp.pair b r)) = Except.error () := by
  unfold parse_aggsig
  cases r with
  | pair r1 r2 => cases a <;> cases b <;> simp
  | atom x =>
    have hx : x ≠ [] := fun hc => hr (by rw [hc])
    cases a <;> cases b <;> simp [hx]

theorem parse_create_coin_trailing (a b r : SExp) (hr : r ≠ SExp.atom []) :
    parse_create_coin (SExp.pair a (SExp.pair b r)) = Except.error () := by
  unfold parse_create_coin
  cases r with
  | pair r1 r2 => cases a <;> cases b <;> simp
  | atom x =>
    have hx : x ≠ [] := fun hc => hr (by rw [hc])
    cases a <;> cases b <;> simp [hx]

theorem parse_seconds_trailing (a r : SExp) (hr : r ≠ SExp.atom []) :
    parse_seconds (SExp.pair a r) = Except.error () := by
  unfold parse_seconds
  cases r with
  | pair r1 r2 => cases a <;> simp
  | atom x =>
    have hx : x ≠ [] := fun hc => hr (by rw [hc])
    cases a <;> simp [hx]

theorem parse_height_trailing (a r : SExp) (hr : r ≠ SExp.atom []) :
    parse_height (SExp.pair a r) = Except.error () := by
  unfold parse_height
  cases r with
  | pair r1 r2 => cases a <;> simp
  | atom x =>
    have hx : x ≠ [] := fun hc => hr (by rw [hc])
    cases a <;> simp [hx]

theorem parse_fee_trailing (a r : SExp) (hr : r ≠ SExp.atom []) :
    parse_fee (SExp.pair a r) = Except.error () := by
  unfold parse_fee
  cases r with
  | pair r1 r2 => cases a <;> simp
  | atom x =>
    have hx : x ≠ [] := fun hc => hr (by rw [hc])
    cases a <;> simp [hx]

theorem parse_coin_id_trailing (a r : SExp) (hr : r ≠ SExp.atom []) :
    parse_coin_id (SExp.pair a r) = Except.error () := by
  unfold parse_coin_id
  cases r with
  | pair r1 r2 => cases a <;> simp
  | atom x =>
    have hx : x ≠ [] := fun hc => hr (by rw [hc])
    cases a <;> simp [hx]

theorem parse_hash_trailing (a r : SExp) (hr : r ≠ SExp.atom []) :
    parse_hash (SExp.pair a r) = Except.error () := by
  unfold parse_hash
  cases r with
  | pair r1 r2 => cases a <;> simp
  | atom x =>
    have hx : x ≠ [] := fun hc => hr (by rw [hc])
    cases a <;> simp [hx]

theorem parse_amount_trailing (a r : SExp) (hr : r ≠ SExp.atom []) :
    parse_amount (SExp.pair a r) = Except.error () := by
  unfold parse_amount
  cases r with
  | pair r1 r2 => cases a <;> simp
  | atom x =>
    have hx : x ≠ [] := fun hc => hr (by rw [hc])
    cases a <;> simp [hx]

theorem parse_announcement_trailing (a r : SExp) (hr : r ≠ SExp.atom []) :
    parse_announcement (SExp.pair a r) = Except.error () := by
  unfold parse_announcement
  cases r with
  | pair r1 r2 => cases a <;> simp
  | atom x =>
    have hx : x ≠ [] := fun hc => hr (by rw [hc])
    cases a <;> simp [hx]

/-- C2: whenever parse_condition_args returns an argument list (rather than
    raising or eliding), the returned atoms satisfy the declared shape for the
    opcode — pubkeys exactly 48 bytes, messages and announcements at most 1024
    bytes, hashes and coin ids exactly 32 bytes, decoded amounts and fees in
    [0, 2^64), decoded seconds in (0, 2^64), decoded heights in (0, 2^32) —
    and each parser rejects trailing list elements after the expected prefix
    (any remainder other than the empty-atom terminator). -/
theorem parse_condition_args_shape (cc : CostTable) (op : ConditionOpcode) (args : SExp) :
    (∀ cost lst, parse_condition_args cc args op = Except.ok (cost, some lst) →
      argShapeOk op lst = true)
  ∧ (∀ r, tailAfter (arity op) args = some r → r ≠ SExp.atom [] →
      parse_condition_args cc args op = Except.error ()) := by
  constructor
  · intro cost lst h
    cases op
    case UNKNOWN => exact absurd h (by simp [parse_condition_args])
    case AGG_SIG_UNSAFE =>
      simp only [parse_condition_args] at h
      obtain ⟨pk, msg, rfl, h1, h2⟩ := parse_aggsig_ok (wrapSome_ok h)
      simp [argShapeOk, h1, h2] <;> omega
    case AGG_SIG_ME =>
      simp only [parse_condition_args] at h
      obtain ⟨pk, msg, rfl, h1, h2⟩ := parse_aggsig_ok (wrapSome_ok h)
      simp [argShapeOk, h1, h2] <;> omega
    case CREATE_COIN =>
      simp only [parse_condition_args] at h
      obtain ⟨ph, am, rfl, h1, h2, h3⟩ := parse_create_coin_ok (wrapSome_ok h)
      simp [argShapeOk, h1, h2, h3] <;> omega
    case ASSERT_SECONDS_ABSOLUTE =>
      simp only [parse_condition_args] at h
      obtain ⟨s, rfl, h1, h2⟩ := parse_seconds_ok (wrapOpt_ok_some h)
      simp [argShapeOk, h1, h2] <;> omega
    case ASSERT_SECONDS_RELATIVE =>
      simp only [parse_condition_args] at h
      obtain ⟨s, rfl, h1, h2⟩ := parse_seconds_ok (wrapOpt_ok_some h)
      simp [argShapeOk, h1, h2] <;> omega
    case ASSERT_HEIGHT_ABSOLUTE =>
      simp only [parse_condition_args] at h
      obtain ⟨hv, rfl, h1, h2⟩ := parse_height_ok (wrapOpt_ok_some h)
      simp [argShapeOk, h1, h2] <;> omega
    case ASSERT_HEIGHT_RELATIVE =>
      simp only [parse_condition_args] at h
      obtain ⟨hv, rfl, h1, h2⟩ := parse_height_ok (wrapOpt_ok_some h)
      simp [argShapeOk, h1, h2] <;> omega
    case ASSERT_MY_COIN_ID =>
      simp only [parse_condition_args] at h
      obtain ⟨x, rfl, h1⟩ := parse_coin_id_ok (wrapSome_ok h)
      simp [argShapeOk, h1]
    case ASSERT_MY_PARENT_ID =>
      simp only [parse_condition_args] at h
      obtain ⟨x, rfl, h1⟩ := parse_coin_id_ok (wrapSome_ok h)
      simp [argShapeOk, h1]
    case RESERVE_FEE =>
      simp only [parse_condition_args] at h
      obtain ⟨f, rfl, h1, h2⟩ := parse_fee_ok (wrapSome_ok h)
      simp [argShapeOk, h1, h2] <;> omega
    case CREATE_COIN_ANNOUNCEMENT =>
      simp only [parse_condition_args] at h
      obtain ⟨m, rfl, h1⟩ := parse_announcement_ok (wrapSome_ok h)
      simp [argShapeOk, h1]
    case CREATE_PUZZLE_ANNOUNCEMENT =>
      simp only [parse_condition_args] at h
      obtain ⟨m, rfl, h1⟩ := parse_announcement_ok (wrapSome_ok h)
      simp [argShapeOk, h1]
    case ASSERT_COIN_ANNOUNCEMENT =>
      simp only [parse_condition_args] at h
      obtain ⟨x, rfl, h1⟩ := parse_hash_ok (wrapSome_ok h)
      simp [argShapeOk, h1]
    case ASSERT_PUZZLE_ANNOUNCEMENT =>
      simp only [parse_condition_args] at h
      obtain ⟨x, rfl, h1⟩ := parse_hash_ok (wrapSome_ok h)
      simp [argShapeOk, h1]
    case ASSERT_MY_PUZZLEHASH =>
      simp only [parse_condition_args] at h
      obtain ⟨x, rfl, h1⟩ := parse_hash_ok (wrapSome_ok h)
      simp [argShapeOk, h1]
    case ASSERT_MY_AMOUNT =>
      simp only [parse_condition_args] at h
      obtain ⟨x, rfl, h1, h2⟩ := parse_amount_ok (wrapSome_ok h)
      simp [argShapeOk, h1, h2] <;> omega
  · intro r htail hr
    cases op
    case UNKNOWN => rfl
    case AGG_SIG_UNSAFE =>
      rcases args with a | ⟨a, rest⟩
      · simp [arity, tailAfter] at htail
      · rcases rest with x | ⟨b, r2⟩
        · simp [arity, tailAfter] at htail
        · simp only [arity, tailAfter, Option.some.injEq] at htail
          subst htail
          simp [parse_condition_args, wrapSome, parse_aggsig_trailing _ _ _ hr]
    case AGG_SIG_ME =>
      rcases args with a | ⟨a, rest⟩
      · simp [arity, tailAfter] at htail
      · rcases rest with x | ⟨b, r2⟩
        · simp [arity, tailAfter] at htail
        · simp only [arity, tailAfter, Option.some.injEq] at htail
          subst htail
          simp [parse_condition_args, wrapSome, parse_aggsig_trailing _ _ _ hr]
    case CREATE_COIN =>
      rcases args with a | ⟨a, rest⟩
      · simp [arity, tailAfter] at htail
      · rcases rest with x | ⟨b, r2⟩
        · simp [arity, tailAfter] at htail
        · simp only [arity, tailAfter, Option.some.injEq] at htail
          subst htail
          simp [parse_condition_args, wrapSome, parse_create_coin_trailing _ _ _ hr]
    case ASSERT_SECONDS_ABSOLUTE =>
      rcases args with a | ⟨a, r2⟩
      · simp [arity, tailAfter] at htail
      · simp only [arity, tailAfter, Option.some.injEq] at htail
        subst htail
        simp [parse_condition_args, wrapOpt, parse_seconds_trailing _ _ hr]
    case ASSERT_SECONDS_RELATIVE =>
      rcases args with a | ⟨a, r2⟩
      · simp [arity, tailAfter] at htail
      · simp only [arity, tailAfter, Option.some.injEq] at htail
        subst htail
        simp [parse_condition_args, wrapOpt, parse_seconds_trailing _ _ hr]
    case ASSERT_HEIGHT_ABSOLUTE =>
      rcases args with a | ⟨a, r2⟩
      · simp [arity, tailAfter] at htail
      · simp only [arity, tailAfter, Option.some.injEq] at htail
        subst htail
        simp [parse_condition_args, wrapOpt, parse_height_trailing _ _ hr]
    case ASSERT_HEIGHT_RELATIVE =>
      rcases args with a | ⟨a, r2⟩
      · simp [arity, tailAfter] at htail
      · simp only [arity, tailAfter, Option.some.injEq] at htail
        subst htail
        simp [parse_condition_args, wrapOpt, parse_height_trailing _ _ hr]
    case ASSERT_MY_COIN_ID =>
      rcases args with a | ⟨a, r2⟩
      · simp [arity, tailAfter] at htail
      · simp only [arity, tailAfter, Option.some.injEq] at htail
        subst htail
        simp [parse_condition_args, wrapSome, parse_coin_id_trailing _ _ hr]
    case ASSERT_MY_PARENT_ID =>
      rcases args with a | ⟨a, r2⟩
      · simp [arity, tailAfter] at htail
      · simp only [arity, tailAfter, Option.some.injEq] at htail
        subst htail
        simp [parse_condition_args, wrapSome, parse_coin_id_trailing _ _ hr]
    case RESERVE_FEE =>
      rcases args with a | ⟨a, r2⟩
      · simp [arity, tailAfter] at htail
      · simp only [arity, tailAfter, Option.some.injEq] at htail
        subst htail
        simp [parse_condition_args, wrapSome, parse_fee_trailing _ _ hr]
    case CREATE_COIN_ANNOUNCEMENT =>
      rcases args with a | ⟨a, r2⟩
      · simp [arity, tailAfter] at htail
      · simp only [arity, tailAfter, Option.some.injEq] at htail
        subst htail
        simp [parse_condition_args, wrapSome, parse_announcement_trailing _ _ hr]
    case CREATE_PUZZLE_ANNOUNCEMENT =>
      rcases args with a | ⟨a, r2⟩
      · simp [arity, tailAfter] at htail
      · simp only [arity, tailAfter, Option.some.injEq] at htail
        subst htail
        simp [parse_condition_args, wrapSome, parse_announcement_trailing _ _ hr]
    case ASSERT_COIN_ANNOUNCEMENT =>
      rcases args with a | ⟨a, r2⟩
      · simp [arity, tailAfter] at htail
      · simp only [arity, tailAfter, Option.some.injEq] at htail
        subst htail
        simp [parse_condition_args, wrapSome, parse_hash_trailing _ _ hr]
    case ASSERT_PUZZLE_ANNOUNCEMENT =>
      rcases args with a | ⟨a, r2⟩
      · simp [arity, tailAfter] at htail
      · simp only [arity, tailAfter, Option.some.injEq] at htail
        subst htail
        simp [parse_condition_args, wrapSome, parse_hash_trailing _ _ hr]
    case ASSERT_MY_PUZZLEHASH =>
      rcases args with a | ⟨a, r2⟩
      · simp [arity, tailAfter] at htail
      · simp only [arity, tailAfter, Option.some.injEq] at htail
        subst htail
        simp [parse_condition_args, wrapSome, parse_hash_trailing _ _ hr]
    case ASSERT_MY_AMOUNT =>
      rcases args with a | ⟨a, r2⟩
      · simp [arity, tailAfter] at htail
      · simp only [arity, tailAfter, Option.some.injEq] at htail
        subst htail
        simp [parse_condition_args, wrapSome, parse_amount_trailing _ _ hr]

/-- C2 witness: ASSERT_MY_COIN_ID with a single 32-byte argument parses and
    the returned vector satisfies the declared shape; trailing rejection at a
    two-element argument list. -/
theorem parse_condition_args_shape_witness :
    argShapeOk ConditionOpcode.ASSERT_MY_COIN_ID [List.replicate 32 0] = true
    ∧ parse_condition_args cc0
        (SExp.pair (SExp.atom (List.replicate 32 0))
          (SExp.pair (SExp.atom [1]) (SExp.atom [])))
        ConditionOpcode.ASSERT_MY_COIN_ID = Except.error () :=
  ⟨(parse_condition_args_shape cc0 ConditionOpcode.ASSERT_MY_COIN_ID
      (SExp.pair (SExp.atom (List.replicate 32 0)) (SExp.atom []))).1
      0 [List.replicate 32 0] (by decide),
   (parse_condition_args_shape cc0 ConditionOpcode.ASSERT_MY_COIN_ID
      (SExp.pair (SExp.atom (List.replicate 32 0))
        (SExp.pair (SExp.atom [1]) (SExp.atom [])))).2
      (SExp.pair (SExp.atom [1]) (SExp.atom [])) (by decide) (by decide)⟩

theorem get_name_puzzle_conditions_cases (cc : CostTable) (so : Bool) (gs : Nat)
    (vm : Bool → Int → Except Unit (Nat × SExp)) (mc : Int) (cpb : Nat) (sm : Bool) :
    get_name_puzzle_conditions cc so gs vm mc cpb sm
        = NPCResult.mk (some Err.GENERATOR_RUNTIME_ERROR) [] 0
    ∨ get_name_puzzle_conditions cc so gs vm mc cpb sm
        = NPCResult.mk (some Err.BLOCK_COST_EXCEEDS_MAX) [] 0
    ∨ ∃ clvm res npcs, vm sm (mc - gs * cpb) = Except.ok (clvm, res)
        ∧ get_name_puzzle_conditions cc so gs vm mc cpb sm
            = NPCResult.mk none npcs clvm := by
  by_cases hso : so = false
  · left
    simp [get_name_puzzle_conditions, npc_inner, hso]
  · by_cases hbyte : mc - gs * cpb < 0
    · right; left
      simp [get_name_puzzle_conditions, npc_inner, hso, hbyte]
    · rcases hvm : vm sm (mc - gs * cpb) with e | ⟨clvm, res⟩
      · left
        simp [get_name_puzzle_conditions, npc_inner, hso, hbyte, hvm]
      · rcases hfst : sfirst res with e | spends
        · left
          simp [get_name_puzzle_conditions, npc_inner, hso, hbyte, hvm, hfst]
        · rcases hps : processSpends cc sm spends (mc - gs * cpb - clvm) with e | o
          · left
            simp [get_name_puzzle_conditions, npc_inner, hso, hbyte, hvm, hfst, hps]
          · rcases o with _ | ⟨rem, npcs⟩
            · right; left
              simp [get_name_puzzle_conditions, npc_inner, hso, hbyte, hvm, hfst, hps]
            · by_cases hcl : clvm < 18446744073709551616
              · right; right
                exact ⟨clvm, res, npcs, rfl, by
                  simp [get_name_puzzle_conditions, npc_inner, hso, hbyte, hvm, hfst,
                    hps, hcl]⟩
              · left
                simp [get_name_puzzle_conditions, npc_inner, hso, hbyte, hvm, hfst,
                  hps, hcl]

/-- C3: whenever get_name_puzzle_conditions returns an NPCResult whose error
    is present, the error is BLOCK_COST_EXCEEDS_MAX or GENERATOR_RUNTIME_ERROR,
    the npcs list is empty and the cost is 0; whenever it succeeds, the error
    is absent and the cost equals the VM's reported execution cost alone. -/
theorem npc_result_error_shape (cc : CostTable) (so : Bool) (gs : Nat)
    (vm : Bool → Int → Except Unit (Nat × SExp)) (mc : Int) (cpb : Nat) (sm : Bool) :
    ((get_name_puzzle_conditions cc so gs vm mc cpb sm).error.isSome = true →
      (get_name_puzzle_conditions cc so gs vm mc cpb sm).npcs = []
        ∧ (get_name_puzzle_conditions cc so gs vm mc cpb sm).cost = 0)
  ∧ (∀ e, (get_name_puzzle_conditions cc so gs vm mc cpb sm).error = some e →
      e = Err.BLOCK_COST_EXCEEDS_MAX ∨ e = Err.GENERATOR_RUNTIME_ERROR)
  ∧ ((get_name_puzzle_conditions cc so gs vm mc cpb sm).error = none →
      ∃ res, vm sm (mc - gs * cpb)
          = Except.ok ((get_name_puzzle_conditions cc so gs vm mc cpb sm).cost, res)) := by
  rcases get_name_puzzle_conditions_cases cc so gs vm mc cpb sm with
    h | h | ⟨clvm, res, npcs, hvm, h⟩
  · rw [h]
    refine ⟨fun _ => ⟨rfl, rfl⟩, ?_, ?_⟩
    · intro e he
      simp only [Option.some.injEq] at he
      exact Or.inr he.symm
    · intro hc
      exact absurd hc (by simp)
  · rw [h]
    refine ⟨fun _ => ⟨rfl, rfl⟩, ?_, ?_⟩
    · intro e he
      simp only [Option.some.injEq] at he
      exact Or.inl he.symm
    · intro hc
      exact absurd hc (by simp)
  · rw [h]
    refine ⟨?_, ?_, ?_⟩
    · intro hc
      exact absurd hc (by simp)
    · intro e he
      exact absurd he (by simp)
    · intro _
      exact ⟨res, by simpa using hvm⟩

/-- C3 witness: a raising VM (setup failure) yields the error result with
    empty npcs and zero cost. -/
theorem npc_result_error_shape_witness :
    (get_name_puzzle_conditions cc0 false 0 vmErr 0 0 true).npcs = []
      ∧ (get_name_puzzle_conditions cc0 false 0 vmErr 0 0 true).cost = 0 :=
  (npc_result_error_shape cc0 false 0 vmErr 0 0 true).1 (by decide)

/-- C1 (amended): max_cost is decremented in the order byte cost → VM cost →
    per-condition costs (iteration order); the byte-cost subtraction and each
    per-condition subtraction are immediately followed by a negativity check
    that makes the run return BLOCK_COST_EXCEEDS_MAX (empty npcs, cost 0); the
    VM-cost subtraction is not followed by such a check — a budget made
    negative by the reported VM cost is detected only at the next
    per-condition check, or never when no condition follows. -/
theorem budget_check_points (cc : CostTable) (so : Bool) (gs : Nat)
    (vm : Bool → Int → Except Unit (Nat × SExp)) (mc : Int) (cpb : Nat) (sm : Bool) :
    (so = true → mc - gs * cpb < 0 →
      get_name_puzzle_conditions cc so gs vm mc cpb sm
        = NPCResult.mk (some Err.BLOCK_COST_EXCEEDS_MAX) [] 0)
  ∧ (∀ (c t : SExp) (budget : Int) (cost : Nat) (cvl : Option ConditionWithArgs),
      parse_condition cc c sm = Except.ok (cost, cvl) →
      budget - (cost : Int) < 0 →
      processConds cc sm (SExp.pair c t) budget = Except.ok none)
  ∧ (∀ clvm res spends, so = true → 0 ≤ mc - gs * cpb →
      vm sm (mc - gs * cpb) = Except.ok (clvm, res) →
      sfirst res = Except.ok spends →
      processSpends cc sm spends (mc - gs * cpb - clvm) = Except.ok none →
      get_name_puzzle_conditions cc so gs vm mc cpb sm
        = NPCResult.mk (some Err.BLOCK_COST_EXCEEDS_MAX) [] 0) := by
  refine ⟨?_, ?_, ?_⟩
  · intro hso hneg
    subst hso
    simp [get_name_puzzle_conditions, npc_inner, hneg]
  · intro c t budget cost cvl hp hneg
    simp [processConds, hp, hneg]
  · intro clvm res spends hso hge hvm hfst hps
    subst hso
    simp [get_name_puzzle_conditions, npc_inner, not_lt.mpr hge, hvm, hfst, hps]

/-- C1 (counterexample): a VM outcome reporting cost 50 against a remaining
    budget of 9 (initial budget 10, one byte at cost 1) makes the running
    budget negative at the VM-cost subtraction, yet the run returns success
    with cost 50 — not BLOCK_COST_EXCEEDS_MAX: the first point at which the
    running budget becomes negative does not make the function return that
    error, because no check follows the VM-cost subtraction. -/
theorem budget_negative_after_vm_not_flagged :
    get_name_puzzle_conditions cc0 true 1 vmBig50 10 1 false = NPCResult.mk none [] 50
    ∧ (10 : Int) - 1 * 1 - 50 < 0 :=
  ⟨by decide, by decide⟩

/-- C1 witness: byte cost 5 against budget 3 short-circuits before the VM. -/
theorem budget_check_points_witness :
    get_name_puzzle_conditions cc0 true 5 vmNil 3 1 false
      = NPCResult.mk (some Err.BLOCK_COST_EXCEEDS_MAX) [] 0 :=
  (budget_check_points cc0 true 5 vmNil 3 1 false).1 rfl (by decide)

/-- C7: a condition whose head atom is not a recognized opcode byte makes
    parse_condition fail in strict mode — and a strict run reaching such a
    condition returns GENERATOR_RUNTIME_ERROR — while in permissive mode
    parse_condition returns cost 0 and a ConditionWithArgs with opcode UNKNOWN
    carrying the tail flattened into an atom list. -/
theorem unknown_opcode_semantics (cc : CostTable) (b : List Nat) (tl : SExp)
    (hb : byteToOpcode b = none) :
    (parse_condition cc (SExp.pair (SExp.atom b) tl) true = Except.error ())
  ∧ (parse_condition cc (SExp.pair (SExp.atom b) tl) false
      = Except.ok (0, some (ConditionWithArgs.mk ConditionOpcode.UNKNOWN (as_atom_list tl))))
  ∧ (∀ (gs : Nat) (vm : Bool → Int → Except Unit (Nat × SExp)) (mc : Int) (cpb : Nat)
        (clvm : Nat) (res p hsh ct t spendsTail : SExp) (amt : List Nat),
      0 ≤ mc - gs * cpb →
      vm true (mc - gs * cpb) = Except.ok (clvm, res) →
      sfirst res = Except.ok (SExp.pair
        (SExp.pair p (SExp.pair hsh (SExp.pair (SExp.atom amt)
          (SExp.pair (SExp.pair (SExp.pair (SExp.atom b) tl) ct) t)))) spendsTail) →
      ¬ (int_from_bytes amt < 0 ∨ (2 : Int) ^ 64 ≤ int_from_bytes amt) →
      get_name_puzzle_conditions cc true gs vm mc cpb true
        = NPCResult.mk (some Err.GENERATOR_RUNTIME_ERROR) [] 0) := by
  refine ⟨?_, ?_, ?_⟩
  · simp [parse_condition, hb]
  · simp [parse_condition, hb]
  · intro gs vm mc cpb clvm res p hsh ct t spendsTail amt hge hvm hfst hamt
    simp [get_name_puzzle_conditions, npc_inner, not_lt.mpr hge, hvm, hfst,
      processSpends, processSpend, hamt, processConds, parse_condition, hb]

/-- C7 witness: opcode byte 1 with two atom arguments, both at parse level and
    through a strict run. -/
theorem unknown_opcode_semantics_witness :
    (parse_condition cc0 (SExp.pair (SExp.atom [1]) unknownCondTail) true
        = Except.error ())
    ∧ (parse_condition cc0 (SExp.pair (SExp.atom [1]) unknownCondTail) false
        = Except.ok (0, some (ConditionWithArgs.mk ConditionOpcode.UNKNOWN
            (as_atom_list unknownCondTail))))
    ∧ get_name_puzzle_conditions cc0 true 0 vmUnknown 100 0 true
        = NPCResult.mk (some Err.GENERATOR_RUNTIME_ERROR) [] 0 :=
  ⟨(unknown_opcode_semantics cc0 [1] unknownCondTail (by decide)).1,
   (unknown_opcode_semantics cc0 [1] unknownCondTail (by decide)).2.1,
   (unknown_opcode_semantics cc0 [1] unknownCondTail (by decide)).2.2 0 vmUnknown 100 0 7
     (SExp.pair (sexpList [spendUnknown]) (SExp.atom []))
     (SExp.atom (List.replicate 32 1)) (SExp.atom (List.replicate 32 2))
     (SExp.atom []) (SExp.atom []) (SExp.atom []) [3]
     (by decide) (by decide) (by decide) (by decide)⟩

theorem processSpend_bad_amount (cc : CostTable) (sm : Bool) (p hsh t : SExp)
    (v : List Nat) (budget : Int)
    (hv : int_from_bytes v < 0 ∨ (2 : Int) ^ 64 ≤ int_from_bytes v) :
    processSpend cc sm
        (SExp.pair p (SExp.pair hsh (SExp.pair (SExp.atom v) t))) budget
      = Except.error () := by
  norm_num at hv
  simp [processSpend, hv]

theorem processSpends_of_reaches_bad (cc : CostTable) (sm : Bool)
    (spends : SExp) (budget : Int) (h : ReachesBadAmount cc sm spends budget) :
    processSpends cc sm spends budget = Except.error () := by
  induction h with
  | head p hsh t spendsTail v budget hv =>
    simp [processSpends, processSpend_bad_amount cc sm p hsh t v budget hv]
  | step s rest budget mc npc hs hrest ih =>
    simp [processSpends, hs, ih]

/-- C9 (amended): whenever the spend iteration reaches a spend record whose
    third element (the amount) decodes outside [0, 2^64) before any budget
    check fails — the record is the first spend, or every earlier spend was
    processed successfully within the budget — the uint64 coercion raises,
    the exception is trapped at the runner boundary, and
    get_name_puzzle_conditions returns GENERATOR_RUNTIME_ERROR with empty
    npcs and cost 0. A preceding spend can instead exhaust the budget first,
    in which case BLOCK_COST_EXCEEDS_MAX is returned (see the
    counterexample). -/
theorem bad_amount_runtime_error (cc : CostTable) (gs : Nat)
    (vm : Bool → Int → Except Unit (Nat × SExp)) (mc : Int) (cpb : Nat) (sm : Bool)
    (clvm : Nat) (res spends : SExp)
    (hbyte : 0 ≤ mc - gs * cpb)
    (hvm : vm sm (mc - gs * cpb) = Except.ok (clvm, res))
    (hres : sfirst res = Except.ok spends)
    (hreach : ReachesBadAmount cc sm spends (mc - gs * cpb - clvm)) :
    get_name_puzzle_conditions cc true gs vm mc cpb sm
      = NPCResult.mk (some Err.GENERATOR_RUNTIME_ERROR) [] 0 := by
  have hps := processSpends_of_reaches_bad cc sm spends (mc - gs * cpb - clvm) hreach
  simp [get_name_puzzle_conditions, npc_inner, not_lt.mpr hbyte, hvm, hres, hps]

/-- C9 witness: two spends; the first (one ASSERT_SECONDS_ABSOLUTE 1 condition
    costing 5 under ccSec) is processed successfully with budget to spare, the
    second carries the 9-byte encoding of 2^64 as its amount, so the iteration
    reaches the bad record and the run returns GENERATOR_RUNTIME_ERROR. -/
theorem bad_amount_runtime_error_witness :
    get_name_puzzle_conditions ccSec true 0 vmPosThenBad 100 0 true
      = NPCResult.mk (some Err.GENERATOR_RUNTIME_ERROR) [] 0 :=
  bad_amount_runtime_error ccSec 0 vmPosThenBad 100 0 true 7
    (SExp.pair (sexpList [spendPos, spendBadAmount]) (SExp.atom []))
    (sexpList [spendPos, spendBadAmount])
    (by decide) (by decide) (by decide)
    (ReachesBadAmount.step spendPos (sexpList [spendBadAmount]) 93 88 npcPos
      (by decide)
      (ReachesBadAmount.head (SExp.atom (List.replicate 32 1))
        (SExp.atom (List.replicate 32 2))
        (SExp.pair (SExp.atom []) (SExp.atom [])) (SExp.atom [])
        [1, 0, 0, 0, 0, 0, 0, 0, 0] 88 (by decide)))

/-- C9 (counterexample): the VM result contains (as its second spend) a record
    whose amount decodes to 2^64, but the first spend's condition charge (5
    under ccSec) makes the budget negative first, so the run returns
    BLOCK_COST_EXCEEDS_MAX — not GENERATOR_RUNTIME_ERROR. -/
theorem bad_amount_preempted_by_budget :
    get_name_puzzle_conditions ccSec true 0 vmPosThenBad 11 0 true
      = NPCResult.mk (some Err.BLOCK_COST_EXCEEDS_MAX) [] 0 := by decide

@[simp] theorem isOk_ok {α : Type} (a : α) : (Except.ok a : Except Unit α).isOk = true := rfl

@[simp] theorem isOk_error {α : Type} (e : Unit) :
    (Except.error e : Except Unit α).isOk = false := rfl

theorem check_condition_ok (u : CoinRecord) (cset pset : List (List Nat))
    (prevH ts : Nat) (c : ConditionWithArgs)
    (hp : u.coin.parent_coin_info.isSome = true)
    (hh : u.coin.puzzle_hash.isSome = true) (hv : c.vars ≠ []) :
    (check_condition u cset pset prevH ts c).isOk = true := by
  obtain ⟨v, vs, hvv⟩ : ∃ v vs, c.vars = v :: vs := by
    cases hc : c.vars
    · exact absurd hc hv
    · exact ⟨_, _, rfl⟩
  have hg : getVar0 c = Except.ok v := by simp [getVar0, hvv]
  obtain ⟨pa, hpa⟩ := Option.isSome_iff_exists.mp hp
  obtain ⟨ph, hph⟩ := Option.isSome_iff_exists.mp hh
  have hname : Coin.name u.coin = Except.ok (pa ++ ph ++ int_to_bytes u.coin.amount) := by
    simp [Coin.name, hpa, hph]
  cases hop : c.opcode <;>
    simp [check_condition, hop, mempool_assert_my_coin_id, mempool_assert_announcement,
      mempool_assert_absolute_block_height_exceeds,
      mempool_assert_relative_block_height_exceeds,
      mempool_assert_absolute_time_exceeds, mempool_assert_relative_time_exceeds,
      mempool_assert_my_parent_id, mempool_assert_my_puzzlehash,
      mempool_assert_my_amount, hname, hg] <;>
    split <;> simp

theorem checkCondList_ok (u : CoinRecord) (cset pset : List (List Nat))
    (prevH ts : Nat) (l : List ConditionWithArgs)
    (hp : u.coin.parent_coin_info.isSome = true)
    (hh : u.coin.puzzle_hash.isSome = true) (hv : ∀ c ∈ l, c.vars ≠ []) :
    (checkCondList u cset pset prevH ts l).isOk = true := by
  induction l with
  | nil => rfl
  | cons c rest ih =>
    have h1 := check_condition_ok u cset pset prevH ts c hp hh (hv c (by simp))
    rcases hcc : check_condition u cset pset prevH ts c with e | o
    · rw [hcc] at h1
      simp at h1
    · rcases o with _ | e
      · simp only [checkCondList, hcc]
        exact ih (fun x hx => hv x (by simp [hx]))
      · simp [checkCondList, hcc]

theorem checkDictLists_ok (u : CoinRecord) (cset pset : List (List Nat))
    (prevH ts : Nat) (ls : List (List ConditionWithArgs))
    (hp : u.coin.parent_coin_info.isSome = true)
    (hh : u.coin.puzzle_hash.isSome = true) (hv : ∀ l ∈ ls, ∀ c ∈ l, c.vars ≠ []) :
    (checkDictLists u cset pset prevH ts ls).isOk = true := by
  induction ls with
  | nil => rfl
  | cons l rest ih =>
    have h1 := checkCondList_ok u cset pset prevH ts l hp hh (hv l (by simp))
    rcases hcl : checkCondList u cset pset prevH ts l with e | o
    · rw [hcl] at h1
      simp at h1
    · rcases o with _ | e
      · simp only [checkDictLists, hcl]
        exact ih (fun x hx => hv x (by simp [hx]))
      · simp [checkDictLists, hcl]

/-- C10: every per-opcode checker invoked by mempool_check_conditions_dict
    reads condition.vars[0] without a guard: a ConditionWithArgs with an empty
    argument list for any checked opcode makes the evaluator raise an
    exception instead of returning an error kind; under the precondition that
    every ConditionWithArgs in the mapping carries at least one argument (the
    documented shape invariant) and the coin record's byte fields are present,
    the out-of-bounds access is unreachable and the evaluator is total. -/
theorem evaluator_var0_guard (u : CoinRecord) (cset pset : List (List Nat))
    (d : List (ConditionOpcode × List ConditionWithArgs)) (prevH ts : Nat) :
    (u.coin.parent_coin_info.isSome = true → u.coin.puzzle_hash.isSome = true →
      (∀ p ∈ d, ∀ c ∈ p.2, c.vars ≠ []) →
      (mempool_check_conditions_dict u cset pset d prevH ts).isOk = true)
  ∧ (∀ op, op ∈ checkedOpcodes → ∀ pre,
      mempool_check_conditions_dict u cset pset
        ((op, [ConditionWithArgs.mk op []]) :: pre) prevH ts = Except.error ()) := by
  constructor
  · intro hp hh hv
    apply checkDictLists_ok u cset pset prevH ts _ hp hh
    intro l hl c hc
    obtain ⟨p, hpd, rfl⟩ := List.mem_map.mp hl
    exact hv p hpd c hc
  · intro op hop pre
    fin_cases hop <;>
      rcases hn : Coin.name u.coin with e | nm <;>
        simp [mempool_check_conditions_dict, checkDictLists, checkCondList,
          check_condition, mempool_assert_my_coin_id, mempool_assert_announcement,
          mempool_assert_absolute_block_height_exceeds,
          mempool_assert_relative_block_height_exceeds,
          mempool_assert_absolute_time_exceeds, mempool_assert_relative_time_exceeds,
          mempool_assert_my_parent_id, mempool_assert_my_puzzlehash,
          mempool_assert_my_amount, getVar0, hn]

/-- C10 witness: with a well-formed coin record, ASSERT_MY_AMOUNT with one
    argument evaluates without raising; with an empty argument list the
    evaluator raises. -/
theorem evaluator_var0_guard_witness :
    (mempool_check_conditions_dict uRec [] []
        [(ConditionOpcode.ASSERT_MY_AMOUNT,
          [ConditionWithArgs.mk ConditionOpcode.ASSERT_MY_AMOUNT [[5]]])] 7 11).isOk = true
    ∧ mempool_check_conditions_dict uRec [] []
        [(ConditionOpcode.ASSERT_MY_AMOUNT,
          [ConditionWithArgs.mk ConditionOpcode.ASSERT_MY_AMOUNT []])] 7 11
        = Except.error () :=
  ⟨(evaluator_var0_guard uRec [] []
      [(ConditionOpcode.ASSERT_MY_AMOUNT,
        [ConditionWithArgs.mk ConditionOpcode.ASSERT_MY_AMOUNT [[5]]])] 7 11).1
      (by decide) (by decide) (by decide),
   (evaluator_var0_guard uRec [] [] [] 7 11).2
      ConditionOpcode.ASSERT_MY_AMOUNT (by decide) []⟩
